import Mathlib

/-!
Verification of the crosis4furrets client core: the terminal-output
reducer behind the buffered command drivers (`execRun` / `execShell` /
`execInterp` in `src/lib/methods/shell.ts`), the channel registry
(`src/lib/methods/internals.ts`), the session lifecycle
(`connect` / `close` / `disconnect` in `src/lib/methods/config.ts` and
the `CrosisClient` constructor), and the capability gating of the
run/exec/stop/packager operations.

The JavaScript source is embedded shallowly: event-driven listeners
become step functions over explicit state records folded over event
lists, promises become a settle-once `Option` field, and the string
processing (`String.prototype.trim`, `split`, `join`, `replace` with
the concrete regexes of the source, including the `g`-flag `lastIndex`
statefulness of `RegExp.prototype.test`) is implemented directly over
`List Char`.
-/

set_option autoImplicit false

/-! ### JavaScript string primitives -/

/-- The WhiteSpace and LineTerminator characters recognised by
JavaScript's `String.prototype.trim` and by the regex class `\s`. -/
def jsWhitespaceChar (c : Char) : Bool :=
  c == ' ' || c == '\t' || c == '\n' || c == '\r' ||
  c == '\x0b' || c == '\x0c' || c == ' ' ||
  (0x2000 ≤ c.val && c.val ≤ 0x200a) ||
  c.val == 0x1680 || c.val == 0x2028 || c.val == 0x2029 ||
  c.val == 0x202f || c.val == 0x205f || c.val == 0x3000 ||
  c.val == 0xfeff

/-- JavaScript `String.prototype.trim` on the underlying character list. -/
def jsTrimData (l : List Char) : List Char :=
  ((l.dropWhile jsWhitespaceChar).reverse.dropWhile jsWhitespaceChar).reverse

/-- JavaScript `String.prototype.trim`. -/
def jsTrim (s : String) : String := ⟨jsTrimData s.data⟩

/-- Worker for `splitOnChar`: JavaScript `String.prototype.split` with a
one-character separator, carrying the current (reversed) segment. -/
def splitOnCharAux (sep : Char) : List Char → List Char → List String
  | [], acc => [⟨acc.reverse⟩]
  | c :: cs, acc =>
    if c == sep then (⟨acc.reverse⟩ : String) :: splitOnCharAux sep cs []
    else splitOnCharAux sep cs (c :: acc)

/-- JavaScript `s.split(sep)` for a one-character separator `sep`
(`''.split(x) = ['']`, separators at the ends produce empty segments). -/
def splitOnChar (sep : Char) (s : String) : List String :=
  splitOnCharAux sep s.data []

/-- JavaScript `Array.prototype.join` with a one-character separator. -/
def joinWith (sep : Char) : List String → String
  | [] => ""
  | [s] => s
  | s :: rest => s ++ (⟨[sep]⟩ : String) ++ joinWith sep rest

/-- JavaScript `String.prototype.includes` (substring test). -/
def listStartsWith : List Char → List Char → Bool
  | _, [] => true
  | [], _ :: _ => false
  | c :: cs, p :: ps => c == p && listStartsWith cs ps

/-- `listContains l pat` is true iff `pat` occurs as a contiguous
substring of `l`; in particular the empty pattern always occurs. -/
def listContains (l pat : List Char) : Bool :=
  match l with
  | [] => listStartsWith [] pat
  | _ :: rest => listStartsWith l pat || listContains rest pat

/-- JavaScript `s.includes(pat)`. -/
def jsIncludes (s pat : String) : Bool := listContains s.data pat.data

/-! ### The two ANSI-stripping regex replacements of `shell.ts`

`cleanTerminalOutput` removes colour introducers with
`.replace(/\x1b\[\d+m/g, '')`; the per-chunk prompt test first strips
all ANSI escapes with
`.replace(/\x1B(?:[@-Z\\-_]|\[[0-?]*[ -\/]*[@-~])/gm, '')`.
Both are implemented as left-to-right scanners.  A partially matched
escape sequence that fails is flushed verbatim and scanning restarts at
the character that caused the failure; this reproduces the repeated
leftmost-match semantics of `String.prototype.replace` with a global
regex, because no character other than the leading `ESC` can begin a
match of either pattern. -/

/-- Scanner state for `/\x1b\[\d+m/g` removal: the digits seen so far
after `ESC [`.  `stripColorAux l st` processes `l`; `st` encodes the
pending partial match (`none` = no pending, `some none` = saw `ESC`,
`some (some ds)` = saw `ESC [` then digits `ds`, possibly `[]`). -/
def stripColorAux : List Char → Option (Option (List Char)) → List Char
  | [], none => []
  | [], some none => ['\x1b']
  | [], some (some ds) => '\x1b' :: '[' :: ds
  | c :: cs, none =>
    if c == '\x1b' then stripColorAux cs (some none)
    else c :: stripColorAux cs none
  | c :: cs, some none =>
    if c == '[' then stripColorAux cs (some (some []))
    else if c == '\x1b' then '\x1b' :: stripColorAux cs (some none)
    else '\x1b' :: c :: stripColorAux cs none
  | c :: cs, some (some ds) =>
    if c.isDigit then stripColorAux cs (some (some (ds ++ [c])))
    else if c == 'm' && ds ≠ [] then stripColorAux cs none
    else if c == '\x1b' then '\x1b' :: '[' :: (ds ++ stripColorAux cs (some none))
    else '\x1b' :: '[' :: (ds ++ c :: stripColorAux cs none)

/-- `output.replace(/\x1b\[\d+m/g, '')` from `cleanTerminalOutput`. -/
def stripColorCodes (s : String) : String := ⟨stripColorAux s.data none⟩

/-- Character classes of the full ANSI-escape regex
`/\x1B(?:[@-Z\\-_]|\[[0-?]*[ -\/]*[@-~])/gm`. -/
def isFeChar (c : Char) : Bool :=
  (0x40 ≤ c.val && c.val ≤ 0x5a) || (0x5c ≤ c.val && c.val ≤ 0x5f)

def isCsiParam (c : Char) : Bool := 0x30 ≤ c.val && c.val ≤ 0x3f

def isCsiInter (c : Char) : Bool := 0x20 ≤ c.val && c.val ≤ 0x2f

def isCsiFinal (c : Char) : Bool := 0x40 ≤ c.val && c.val ≤ 0x7e

/-- Scanner state for the full ANSI-escape removal.  `AnsiSt.esc`:
saw `ESC`; `AnsiSt.csiP ps`: saw `ESC [` then parameter bytes `ps`;
`AnsiSt.csiI ps is`: additionally saw intermediate bytes `is`. -/
inductive AnsiSt
  | norm
  | esc
  | csiP (ps : List Char)
  | csiI (ps qs : List Char)

/-- Characters held by a pending partial match, flushed on failure. -/
def ansiPending : AnsiSt → List Char
  | .norm => []
  | .esc => ['\x1b']
  | .csiP ps => '\x1b' :: '[' :: ps
  | .csiI ps qs => '\x1b' :: '[' :: (ps ++ qs)

def stripAnsiAux : List Char → AnsiSt → List Char
  | [], st => ansiPending st
  | c :: cs, .norm =>
    if c == '\x1b' then stripAnsiAux cs .esc
    else c :: stripAnsiAux cs .norm
  | c :: cs, .esc =>
    if c == '[' then stripAnsiAux cs (.csiP [])
    else if isFeChar c then stripAnsiAux cs .norm
    else if c == '\x1b' then '\x1b' :: stripAnsiAux cs .esc
    else '\x1b' :: c :: stripAnsiAux cs .norm
  | c :: cs, .csiP ps =>
    if isCsiParam c then stripAnsiAux cs (.csiP (ps ++ [c]))
    else if isCsiInter c then stripAnsiAux cs (.csiI ps [c])
    else if isCsiFinal c then stripAnsiAux cs .norm
    else if c == '\x1b' then '\x1b' :: '[' :: (ps ++ stripAnsiAux cs .esc)
    else '\x1b' :: '[' :: (ps ++ c :: stripAnsiAux cs .norm)
  | c :: cs, .csiI ps qs =>
    if isCsiInter c then stripAnsiAux cs (.csiI ps (qs ++ [c]))
    else if isCsiFinal c then stripAnsiAux cs .norm
    else if c == '\x1b' then '\x1b' :: '[' :: (ps ++ qs ++ stripAnsiAux cs .esc)
    else '\x1b' :: '[' :: (ps ++ qs ++ c :: stripAnsiAux cs .norm)

/-- The `safePromptTest` preprocessing of each output chunk:
`cmd.output.replace(/\x1B(?:[@-Z\\-_]|\[[0-?]*[ -\/]*[@-~])/gm, '')`. -/
def stripAnsiEsc (s : String) : String := ⟨stripAnsiAux s.data .norm⟩

/-! ### The shell-prompt regex `/~\/[\w\d-]+\$\s$/gm`

`shellPrompt` is a module-level constant with the `g` flag, and the
source calls `shellPrompt.test(...)` on it; per JavaScript semantics
such a test starts searching at the regex's persistent `lastIndex`,
sets `lastIndex` past the match on success, and resets it to `0` on
failure.  The matcher below implements exactly this fixed pattern:
`~/` then one or more `[\w\d-]` characters, a literal `$`, one `\s`
character, and a multiline end-of-line assertion. -/

def isWordDashChar (c : Char) : Bool :=
  c.isAlpha || c.isDigit || c == '_' || c == '-'

/-- Length of the maximal `[\w\d-]` run at the head of the list. -/
def wordRun : List Char → Nat
  | [] => 0
  | c :: cs => if isWordDashChar c then wordRun cs + 1 else 0

/-- Multiline `$` assertion: end of input or before a LineTerminator. -/
def eolAt (l : List Char) (i : Nat) : Bool :=
  i == l.length ||
  (match l.get? i with
   | some c => c == '\n' || c == '\r' || c.val == 0x2028 || c.val == 0x2029
   | none => false)

/-- Try to match `~\/[\w\d-]+\$\s$` starting at index `i`; on success
return the end index of the match.  The character class of the
quantifier excludes `$`, so the greedy run is forced and no further
backtracking arises. -/
def promptMatchAt (l : List Char) (i : Nat) : Option Nat :=
  match l.get? i, l.get? (i + 1) with
  | some '~', some '/' =>
    let k := wordRun (l.drop (i + 2))
    if k = 0 then none
    else
      match l.get? (i + 2 + k), l.get? (i + 3 + k) with
      | some '$', some c =>
        if jsWhitespaceChar c && eolAt l (i + 4 + k) then some (i + 4 + k)
        else none
      | _, _ => none
  | _, _ => none

/-- Leftmost match with start position at least `i`; `fuel` bounds the
number of start positions tried. -/
def promptSearchFrom (l : List Char) (i fuel : Nat) : Option Nat :=
  match fuel with
  | 0 => none
  | fuel' + 1 =>
    match promptMatchAt l i with
    | some e => some e
    | none => promptSearchFrom l (i + 1) fuel'

/-- `shellPrompt.test(s)` with the regex's `lastIndex` equal to `li`:
returns the test result and the updated `lastIndex`. -/
def shellPromptTest (s : String) (li : Nat) : Bool × Nat :=
  let l := s.data
  match promptSearchFrom l li (l.length + 1 - li) with
  | some e => (true, e)
  | none => (false, 0)

/-- The claim's prompt detector, in the spec's words: the chunk, after
stripping ANSI escape sequences, ends with the shell-prompt idiom
(a match of the pattern terminating at the end of the chunk). -/
def chunkEndsWithShellPrompt (s : String) : Bool :=
  let l := (stripAnsiEsc s).data
  (List.range (l.length + 1)).any fun i =>
    promptMatchAt l i == some l.length

/-! ### `cleanTerminalOutput` (`shell.ts`, lines 31-47) -/

/-- The output cleaning applied when a buffered driver resolves:
```
const trimmed = output.trim().replace(/\x1b\[\d+m/g, '')
  .split('\n').slice(1, -1).join('\n').trim();
if (trimmed.length === 0) return '';
const cleaned = trimmed.split('\r').slice(1).join('\r');
return cleaned;
```
-/
def cleanTerminalOutput (output : String) : String :=
  let trimmed :=
    jsTrim (joinWith '\n'
      (((splitOnChar '\n' (stripColorCodes (jsTrim output))).drop 1).dropLast))
  if trimmed = "" then ""
  else joinWith '\r' ((splitOnChar '\r' trimmed).drop 1)

/-- The claim's reference definition of the output cleaning, following
its words: trim, remove every ANSI colour-introduction sequence, split
on newlines, drop the first and the last line, rejoin with newlines,
trim again; if the result is empty return the empty string; otherwise
split on carriage returns, drop the first carriage-return-delimited
segment, and rejoin the remainder with carriage returns. -/
def cleanTerminalOutputSpec (output : String) : String :=
  let step1 := jsTrim output
  let step2 := stripColorCodes step1
  let lines := splitOnChar '\n' step2
  let middle := (lines.drop 1).dropLast
  let step3 := jsTrim (joinWith '\n' middle)
  if step3 = "" then ""
  else
    let segments := splitOnChar '\r' step3
    joinWith '\r' (segments.drop 1)

/-- The middle lines (all but the first and the last) of the trimmed,
colour-stripped accumulation. -/
def middleLines (s : String) : List String :=
  ((splitOnChar '\n' (stripColorCodes (jsTrim s))).drop 1).dropLast

/-- The tail of the cleaning pipeline, applied to a list of lines. -/
def finishClean (ls : List String) : String :=
  let trimmed := jsTrim (joinWith '\n' ls)
  if trimmed = "" then ""
  else joinWith '\r' ((splitOnChar '\r' trimmed).drop 1)

/-! ### Command events and promise settlement

An inbound `api.ICommand` is modelled by its two fields the buffered
drivers inspect: `output` and `hint` (with `some t` meaning the field
is present carrying text `t`).  JavaScript truthiness makes
`if (cmd.output)` skip both an absent and an empty output, while
`if (cmd.hint)` fires for any present hint object. -/

structure Cmd where
  output : Option String := none
  hint : Option String := none
deriving DecidableEq, Repr

/-- Settle-once promise semantics: the first `resolve`/`reject` wins,
later calls are no-ops. -/
def promiseSettle {α : Type} (p : Option α) (v : α) : Option α :=
  match p with
  | some x => some x
  | none => some v

/-- The message of `rej(new Error('Runner timed out.'))`. -/
def timeoutMsg : String := "Runner timed out."

deriving instance DecidableEq for Except

/-! ### The buffered shell reducer (`execShell`, lines 300-343, and
`execInterp`, lines 176-219 of `shell.ts`; their listeners are
identical) -/

/-- Per-invocation state of the `execShell`/`execInterp` listener:
the accumulation buffer `content`, the prompt-sighting counter,
the module-global `shellPrompt.lastIndex`, and the promise cell
(`Except.ok` = resolved text, `Except.error` = rejection message). -/
structure ShellState where
  content : String
  promptAppearance : Nat
  lastIndex : Nat
  settled : Option (Except String String)
deriving DecidableEq, Repr

/-- Events observed by one `execShell`/`execInterp` invocation: a
command arriving on the channel, or the hard-deadline `setTimeout`
callback firing. -/
inductive SEvent
  | cmd (c : Cmd)
  | deadline
deriving DecidableEq, Repr

/-- The `if (cmd.hint) content += `\nHint:  ` + text` tail of the
listener. -/
def applyHint (st : ShellState) (h : Option String) : ShellState :=
  match h with
  | some t => { st with content := st.content ++ "\nHint:  " ++ t }
  | none => st

/-- The counter after `if (shellPrompt.test(safePromptTest))
promptAppearance++`. -/
def shellPA (st : ShellState) (o : String) : Nat :=
  if (shellPromptTest (stripAnsiEsc o) st.lastIndex).1 then
    st.promptAppearance + 1
  else st.promptAppearance

/-- The body executed for a truthy, non-echo output chunk `o`:
strip ANSI escapes, run the stateful `shellPrompt.test`, bump the
counter on success, append the raw chunk, and call `res` whenever the
counter equals two. -/
def shellOutputStep (st : ShellState) (o : String) : ShellState :=
  { content := st.content ++ o
    promptAppearance := shellPA st o
    lastIndex := (shellPromptTest (stripAnsiEsc o) st.lastIndex).2
    settled :=
      if shellPA st o = 2 then
        promiseSettle st.settled (.ok (cleanTerminalOutput (st.content ++ o)))
      else st.settled }

/-- One `onCommand` callback of `execShell cmdText` / `execInterp
cmdText`: a chunk exactly equal to the echoed input plus `\r\n`
returns from the whole listener (skipping the hint branch too); an
absent or empty output falls through to the hint branch. -/
def execShellCmd (cmdText : String) (st : ShellState) (c : Cmd) : ShellState :=
  match c.output with
  | none => applyHint st c.hint
  | some o =>
    if o = "" then applyHint st c.hint
    else if o = cmdText ++ "\r\n" then st
    else applyHint (shellOutputStep st o) c.hint

/-- One event of an `execShell`/`execInterp` invocation.  The deadline
event is the `setTimeout(() => rej(new Error('Runner timed out.')),
timeout)` callback, armed only when a timeout argument was given. -/
def execShellStep (cmdText : String) (st : ShellState) (e : SEvent) : ShellState :=
  match e with
  | .cmd c => execShellCmd cmdText st c
  | .deadline => { st with settled := promiseSettle st.settled (.error timeoutMsg) }

/-- Listener state at registration: empty buffer, zero sightings, the
module-global regex's current `lastIndex` `li0`, pending promise. -/
def initShellState (li0 : Nat) : ShellState :=
  { content := "", promptAppearance := 0, lastIndex := li0, settled := none }

/-- The whole buffered `execShell`/`execInterp` reduction over an
ordered list of events. -/
def execShellRun (cmdText : String) (li0 : Nat) (evs : List SEvent) : ShellState :=
  evs.foldl (execShellStep cmdText) (initShellState li0)

/-! ### The buffered run reducer (`execRun`, lines 63-101 of `shell.ts`)

`execRun` declares `let timer: Timer` and only assigns it when a
timeout argument is given; the `Timer` constructor stores the callback
and delay but does **not** call `start()`, so no `setTimeout` is
scheduled until the listener's `timer.restart()` runs.  When no timeout
was given, `timer` is `undefined` and `timer.restart()` throws a
`TypeError` after the counter bump and the append but before the `res`
call and before the hint branch. -/

/-- The configured run-prompt marker: `const runPrompt = ''`. -/
def runPrompt : String := ""

/-- Per-invocation state of the `execRun` listener.  `timerStarted`
records whether the inactivity `Timer` has ever been started (its
constructor leaves `handle = null`; only `restart()` starts it);
`threw` records that a `TypeError` escaped the listener. -/
structure RunState where
  content : String
  promptAppearance : Nat
  timerStarted : Bool
  threw : Bool
  settled : Option String
deriving DecidableEq, Repr

/-- Events observed by one `execRun` invocation: a command arriving, or
the inactivity timer's `setTimeout` callback firing (which resolves
with the cleaned content so far). -/
inductive REvent
  | cmd (c : Cmd)
  | timerFire
deriving DecidableEq, Repr

/-- The hint tail of the `execRun` listener. -/
def runApplyHint (st : RunState) (h : Option String) : RunState :=
  match h with
  | some t => { st with content := st.content ++ "\nHint:  " ++ t }
  | none => st

/-- One `onCommand` callback of `execRun`, with `hasTimeout` recording
whether a timeout argument was supplied (i.e. whether `timer` was
assigned).  For a truthy output chunk: `includes(runPrompt)` (always
true for the empty marker) bumps the counter, the chunk is appended,
then `timer.restart()` either starts the timer or — when `timer` is
`undefined` — throws, aborting the listener before the `res` call. -/
def runPA (st : RunState) (o : String) : Nat :=
  if jsIncludes o runPrompt then st.promptAppearance + 1
  else st.promptAppearance

def execRunCmd (hasTimeout : Bool) (st : RunState) (c : Cmd) : RunState :=
  match c.output with
  | none => runApplyHint st c.hint
  | some o =>
    if o = "" then runApplyHint st c.hint
    else
      if hasTimeout then
        runApplyHint
          { content := st.content ++ o
            promptAppearance := runPA st o
            timerStarted := true
            threw := st.threw
            settled :=
              if runPA st o = 2 then
                promiseSettle st.settled (cleanTerminalOutput (st.content ++ o))
              else st.settled }
          c.hint
      else
        { content := st.content ++ o
          promptAppearance := runPA st o
          timerStarted := st.timerStarted
          threw := true
          settled := st.settled }

/-- One event of an `execRun` invocation.  A fire of the inactivity
timer is only possible once `restart()` has scheduled it. -/
def execRunStep (hasTimeout : Bool) (st : RunState) (e : REvent) : RunState :=
  match e with
  | .cmd c => execRunCmd hasTimeout st c
  | .timerFire =>
    if st.timerStarted then
      { st with settled := promiseSettle st.settled (cleanTerminalOutput st.content) }
    else st

/-- Listener state at registration. -/
def initRunState : RunState :=
  { content := "", promptAppearance := 0, timerStarted := false,
    threw := false, settled := none }

/-- The whole buffered `execRun` reduction over an ordered event list. -/
def execRunProcess (hasTimeout : Bool) (evs : List REvent) : RunState :=
  evs.foldl (execRunStep hasTimeout) initRunState

/-! ### The channel registry (`internals.ts`, lines 123-144)

`channel(service, name?)` keys its cache on `name || service`, returns
a stored handle synchronously, and otherwise issues one
`client.openChannel` request, storing the resulting handle under the
key on success.  Channel handles are modelled by `Nat` identifiers and
the transport by a function from the request to an `Except` outcome. -/

structure Registry where
  channels : List (String × Nat)
  opens : Nat
deriving DecidableEq, Repr

/-- JavaScript object lookup `this.channels[id]` (last write wins; the
model inserts at the head, so the first hit is the latest binding). -/
def lookupChan : List (String × Nat) → String → Option Nat
  | [], _ => none
  | (k, v) :: rest, id => if k = id then some v else lookupChan rest id

/-- The cache key `const id = name || service` (JavaScript `||` also
replaces an empty-string name). -/
def channelKey (service : String) (name : Option String) : String :=
  match name with
  | some n => if n = "" then service else n
  | none => service

/-- `channel(service, name?)`: cached handles are returned without any
transport traffic; otherwise one open request is issued (counted in
`opens`), a rejection propagates unwrapped leaving the cache untouched,
and a success is stored under the key. -/
def channel (transport : String → Option String → Except String Nat)
    (st : Registry) (service : String) (name : Option String) :
    Except String Nat × Registry :=
  match lookupChan st.channels (channelKey service name) with
  | some stored => (.ok stored, st)
  | none =>
    match transport service name with
    | .error e => (.error e, { st with opens := st.opens + 1 })
    | .ok c =>
      (.ok c, { channels := (channelKey service name, c) :: st.channels,
                opens := st.opens + 1 })

/-! ### Session teardown (`config.ts` `close`/`disconnect`, lines
117-125 of the configuration module; both bodies are identical) -/

structure SessionState where
  connected : Bool
  persisting : Bool
deriving DecidableEq, Repr

inductive TeardownEffect
  | clientClose
deriving DecidableEq, Repr

def notConnectedMsg : String :=
  "UserError: Cannot close connection because the client is not connected."

/-- `close()` / `disconnect()`: when `connected === false` throw a
state error and change nothing; otherwise call `this.client.close()`
and flip `connected` to `false`.  The result triple is (state after
the call, transport effects performed, error thrown if any). -/
def close (st : SessionState) : SessionState × List TeardownEffect × Option String :=
  if st.connected = false then (st, [], some notConnectedMsg)
  else ({ st with connected := false }, [.clientClose], none)

/-! ### Construction and `connect()` (`crosis.ts` constructor, lines
93-114, and `config.ts` `connect`, lines 25-83) -/

structure CrosisConfigOptions where
  token : String
  replId : String
  ignore : Option String
deriving DecidableEq, Repr

structure ClientModel where
  token : String
  replId : String
  connected : Bool
  persisting : Bool
deriving DecidableEq, Repr

def missingTokenMsg : String := "UserError: Missing token parameter."

/-- The `CrosisClient` constructor: `if (!token) throw new
Error('UserError: Missing token parameter.')` — an empty (falsy) token
fails before anything else; otherwise the inert client is created with
`connected = false`.  The constructor performs no network calls. -/
def mkCrosisClient (o : CrosisConfigOptions) : Except String ClientModel :=
  if o.token = "" then .error missingTokenMsg
  else .ok { token := o.token, replId := o.replId,
             connected := false, persisting := false }

/-- The observable actions `connect(firewalled?)` performs, in order. -/
inductive ConnectAction
  | networkTokenTest (token : String)
  | gqlCurrentUser
  | gqlReplById (id : String)
  | transportOpen
  | raiseConfigError (msg : String)
deriving DecidableEq, Repr

/-- Whether an action raises a configuration error. -/
def isConfigErrorAction : ConnectAction → Bool
  | .raiseConfigError _ => true
  | _ => false

/-- The action sequence of `connect()`: it validates nothing about the
stored credential; its first statement is
`await test(decodeURIComponent(this.token))` (a network call to the
authentication service), then the cached-identity and
cached-workspace lookups (`hasUser` / `hasRepl` say whether
`this.user` / `this.repl` are already set), then the transport
handshake. -/
def connectActions (c : ClientModel) (hasUser hasRepl : Bool) :
    List ConnectAction :=
  [ConnectAction.networkTokenTest c.token] ++
  (if hasUser then [] else [ConnectAction.gqlCurrentUser]) ++
  (if hasRepl then [] else [ConnectAction.gqlReplById c.replId]) ++
  [ConnectAction.transportOpen]

/-! ### Capability gating of the command drivers (`shell.ts`) and the
packager operations (`crosis.ts`)

Each driver first checks the workspace descriptor's capability flag
and returns `false` — without opening a channel, sending anything, or
throwing — when it is absent. -/

structure ReplLanguage where
  id : String
  runner : Bool
  packager3 : Bool
  terminal : Bool
  interpreter : Bool
  engine : String
  mainFile : Option String
  supportsMultiFiles : Bool
deriving DecidableEq, Repr

structure Repl where
  id : String
  slug : String
  language : String
  isPrivate : Bool
  lang : ReplLanguage
deriving DecidableEq, Repr

inductive Payload
  | clear
  | runMain
  | input (s : String)
  | request (name : String)
deriving DecidableEq, Repr

inductive Effect
  | openChannel (service : String)
  | send (service : String) (p : Payload)
deriving DecidableEq, Repr

/-- How a capability-gated operation starts: `returnsFalse` is the
soft-failure path (resolve with `false`, no effects, no error);
`proceeds effects` records the channel open and the initial sends
before the listener takes over. -/
inductive DriveStart
  | returnsFalse
  | proceeds (effects : List Effect)
deriving DecidableEq, Repr

/-- `execRun`: gate on `repl.lang.runner`, then open `shellrun2` and
send `clear` and `runMain`. -/
def execRunDrive (repl : Repl) : DriveStart :=
  if repl.lang.runner then
    .proceeds [.openChannel "shellrun2", .send "shellrun2" .clear,
               .send "shellrun2" .runMain]
  else .returnsFalse

/-- `execShell exec`: gate on `repl.lang.runner`, then open `shell`
and send `clear` and the literal input `exec + '\r'`. -/
def execShellDrive (repl : Repl) (exec : String) : DriveStart :=
  if repl.lang.runner then
    .proceeds [.openChannel "shell", .send "shell" .clear,
               .send "shell" (.input (exec ++ "\r"))]
  else .returnsFalse

/-- `execInterp exec`: gate on `repl.lang.runner`, then open
`shellrun2` and send `clear` and the literal input `exec + '\r'`. -/
def execInterpDrive (repl : Repl) (exec : String) : DriveStart :=
  if repl.lang.runner then
    .proceeds [.openChannel "shellrun2", .send "shellrun2" .clear,
               .send "shellrun2" (.input (exec ++ "\r"))]
  else .returnsFalse

/-- `execStop`: gate on `repl.lang.runner`, then open `shellrun2` and
send `clear` (and resolve `true`). -/
def execStopDrive (repl : Repl) : DriveStart :=
  if repl.lang.runner then
    .proceeds [.openChannel "shellrun2", .send "shellrun2" .clear]
  else .returnsFalse

/-- `packageInstall`: gate on `repl.lang.packager3`. -/
def packageInstallDrive (repl : Repl) : DriveStart :=
  if repl.lang.packager3 then
    .proceeds [.openChannel "packager3",
               .send "packager3" (.request "packageInstall")]
  else .returnsFalse

/-- `packageAdd`: gate on `repl.lang.packager3`. -/
def packageAddDrive (repl : Repl) : DriveStart :=
  if repl.lang.packager3 then
    .proceeds [.openChannel "packager3",
               .send "packager3" (.request "packageAdd")]
  else .returnsFalse

/-- `packageRemove`: gate on `repl.lang.packager3`. -/
def packageRemoveDrive (repl : Repl) : DriveStart :=
  if repl.lang.packager3 then
    .proceeds [.openChannel "packager3",
               .send "packager3" (.request "packageRemove")]
  else .returnsFalse

/-- `packageList`: gate on `repl.lang.packager3`. -/
def packageListDrive (repl : Repl) : DriveStart :=
  if repl.lang.packager3 then
    .proceeds [.openChannel "packager3",
               .send "packager3" (.request "packageListSpecfile")]
  else .returnsFalse

/-- `packageSearch`: gate on `repl.lang.packager3`. -/
def packageSearchDrive (repl : Repl) : DriveStart :=
  if repl.lang.packager3 then
    .proceeds [.openChannel "packager3",
               .send "packager3" (.request "packageSearch")]
  else .returnsFalse

/-- `packageInfo`: gate on `repl.lang.packager3`. -/
def packageInfoDrive (repl : Repl) : DriveStart :=
  if repl.lang.packager3 then
    .proceeds [.openChannel "packager3",
               .send "packager3" (.request "packageInfo")]
  else .returnsFalse

/-! ### Reachability invariant and concrete fixtures -/

/-- The reachability invariant of the shell reducer: an `ok` settlement
implies the counter reached two, and any `error` settlement carries the
deadline message. -/
def shellInv (st : ShellState) : Prop :=
  (∀ v, st.settled = some (Except.ok v) → 2 ≤ st.promptAppearance) ∧
  (∀ m, st.settled = some (Except.error m) → m = timeoutMsg)

/-- A session record with an empty stored credential (such a record can
only be produced by bypassing the constructor, which rejects it). -/
def emptyTokenClient : ClientModel :=
  { token := "", replId := "demo-repl", connected := false,
    persisting := false }

/-- Constructor options with an empty token. -/
def emptyTokenOptions : CrosisConfigOptions :=
  { token := "", replId := "demo-repl", ignore := none }

/-- An ordinary session record. -/
def demoClient : ClientModel :=
  { token := "tok", replId := "demo-repl", connected := false,
    persisting := false }

/-- A workspace descriptor with every capability flag false. -/
def noCapLang : ReplLanguage :=
  { id := "bash", runner := false, packager3 := false, terminal := false,
    interpreter := false, engine := "goval", mainFile := none,
    supportsMultiFiles := false }

/-- A workspace whose language supports neither the runner nor the
packager. -/
def noCapRepl : Repl :=
  { id := "r", slug := "s", language := "bash", isPrivate := false,
    lang := noCapLang }

/-! ### Split/join inverse lemmas -/

theorem stringMk_data (s : String) : (⟨s.data⟩ : String) = s := rfl

theorem strData_append (a b : String) : (a ++ b).data = a.data ++ b.data := rfl

theorem splitOnCharAux_no_sep (sep : Char) (l : List Char)
    (h : ∀ c ∈ l, ¬ c = sep) (acc : List Char) :
    splitOnCharAux sep l acc = [⟨acc.reverse ++ l⟩] := by
  induction l generalizing acc with
  | nil => simp [splitOnCharAux]
  | cons c cs ih =>
    have hc : (c == sep) = false := by
      simp [h c (List.mem_cons_self c cs)]
    have hcs : ∀ x ∈ cs, ¬ x = sep := fun x hx => h x (List.mem_cons_of_mem _ hx)
    simp [splitOnCharAux, hc, ih hcs, List.append_assoc]

theorem splitOnCharAux_sep (sep : Char) (l rest : List Char)
    (h : ∀ c ∈ l, ¬ c = sep) (acc : List Char) :
    splitOnCharAux sep (l ++ sep :: rest) acc =
      (⟨acc.reverse ++ l⟩ : String) :: splitOnCharAux sep rest [] := by
  induction l generalizing acc with
  | nil => simp [splitOnCharAux]
  | cons c cs ih =>
    have hc : (c == sep) = false := by
      simp [h c (List.mem_cons_self c cs)]
    have hcs : ∀ x ∈ cs, ¬ x = sep := fun x hx => h x (List.mem_cons_of_mem _ hx)
    simp [splitOnCharAux, hc, ih hcs, List.append_assoc]

theorem joinWith_data_cons (sep : Char) (s : String) (ls : List String)
    (h : ls ≠ []) :
    (joinWith sep (s :: ls)).data = s.data ++ sep :: (joinWith sep ls).data := by
  cases ls with
  | nil => exact absurd rfl h
  | cons t ts =>
    show (s ++ (⟨[sep]⟩ : String) ++ joinWith sep (t :: ts)).data = _
    simp [strData_append]

theorem splitOnChar_joinWith (sep : Char) (ls : List String) (hne : ls ≠ [])
    (h : ∀ s ∈ ls, ∀ c ∈ s.data, ¬ c = sep) :
    splitOnChar sep (joinWith sep ls) = ls := by
  induction ls with
  | nil => exact absurd rfl hne
  | cons s rest ih =>
    cases rest with
    | nil =>
      show splitOnCharAux sep (joinWith sep [s]).data [] = [s]
      have hs : ∀ c ∈ s.data, ¬ c = sep := h s (List.mem_cons_self s [])
      have := splitOnCharAux_no_sep sep s.data hs []
      simpa [stringMk_data] using this
    | cons t ts =>
      have hs : ∀ c ∈ s.data, ¬ c = sep := h s (List.mem_cons_self _ _)
      have hrest : ∀ x ∈ t :: ts, ∀ c ∈ x.data, ¬ c = sep :=
        fun x hx => h x (List.mem_cons_of_mem _ hx)
      show splitOnCharAux sep (joinWith sep (s :: t :: ts)).data [] = _
      rw [joinWith_data_cons sep s (t :: ts) (by simp)]
      rw [splitOnCharAux_sep sep s.data (joinWith sep (t :: ts)).data hs []]
      simp [stringMk_data]
      exact ih (by simp) hrest

/-! ### Helper lemmas for the shell reducer -/

theorem applyHint_settled (st : ShellState) (h : Option String) :
    (applyHint st h).settled = st.settled := by cases h <;> rfl

theorem applyHint_pa (st : ShellState) (h : Option String) :
    (applyHint st h).promptAppearance = st.promptAppearance := by cases h <;> rfl

theorem shellPA_ge (st : ShellState) (o : String) :
    st.promptAppearance ≤ shellPA st o := by
  unfold shellPA; split <;> omega

theorem execShellCmd_output (cmdText : String) (st : ShellState) (o : String)
    (hint : Option String) (h1 : ¬ o = "") (h2 : ¬ o = cmdText ++ "\r\n") :
    execShellCmd cmdText st { output := some o, hint := hint } =
      applyHint (shellOutputStep st o) hint := by
  show (if o = "" then applyHint st hint
        else if o = cmdText ++ "\r\n" then st
        else applyHint (shellOutputStep st o) hint) = _
  rw [if_neg h1, if_neg h2]

theorem shellOutputStep_settled (st : ShellState) (o : String) :
    (shellOutputStep st o).settled =
      if shellPA st o = 2 then
        promiseSettle st.settled (.ok (cleanTerminalOutput (st.content ++ o)))
      else st.settled := rfl

theorem promiseSettle_eq_some {α : Type} (p : Option α) (v x : α)
    (h : promiseSettle p v = some x) : p = some x ∨ (p = none ∧ x = v) := by
  cases p with
  | none =>
    right
    refine ⟨rfl, ?_⟩
    have hvx : some v = some x := h
    exact (Option.some.inj hvx).symm
  | some y => left; exact h

theorem execShellStep_settled_some (cmdText : String) (st : ShellState)
    (e : SEvent) (x : Except String String) (h : st.settled = some x) :
    (execShellStep cmdText st e).settled = some x := by
  cases e with
  | deadline =>
    show promiseSettle st.settled (.error timeoutMsg) = some x
    rw [h]; rfl
  | cmd c =>
    obtain ⟨out, hint⟩ := c
    cases out with
    | none =>
      show (applyHint st hint).settled = some x
      rw [applyHint_settled]; exact h
    | some o =>
      by_cases h1 : o = ""
      · subst h1
        show (applyHint st hint).settled = some x
        rw [applyHint_settled]; exact h
      · by_cases h2 : o = cmdText ++ "\r\n"
        · show (if o = "" then applyHint st hint
                else if o = cmdText ++ "\r\n" then st
                else applyHint (shellOutputStep st o) hint).settled = some x
          rw [if_neg h1, if_pos h2]; exact h
        · show (execShellCmd cmdText st { output := some o, hint := hint }).settled = some x
          rw [execShellCmd_output cmdText st o hint h1 h2, applyHint_settled,
              shellOutputStep_settled]
          split
          · rw [h]; rfl
          · exact h

theorem execShellFold_settled_some (cmdText : String) (evs : List SEvent)
    (st : ShellState) (x : Except String String) (h : st.settled = some x) :
    (evs.foldl (execShellStep cmdText) st).settled = some x := by
  induction evs generalizing st with
  | nil => exact h
  | cons e evs ih => exact ih _ (execShellStep_settled_some cmdText st e x h)

theorem execShellStep_inv (cmdText : String) (st : ShellState) (e : SEvent)
    (h : shellInv st) : shellInv (execShellStep cmdText st e) := by
  obtain ⟨hok, herr⟩ := h
  cases e with
  | deadline =>
    constructor
    · intro v hv
      have hv' : promiseSettle st.settled (.error timeoutMsg) = some (.ok v) := hv
      rcases promiseSettle_eq_some _ _ _ hv' with hp | ⟨hp, he⟩
      · exact hok v hp
      · exact absurd he (by simp)
    · intro m hm
      have hm' : promiseSettle st.settled (.error timeoutMsg) = some (.error m) := hm
      rcases promiseSettle_eq_some _ _ _ hm' with hp | ⟨hp, he⟩
      · exact herr m hp
      · exact (Except.error.inj he)
  | cmd c =>
    obtain ⟨out, hint⟩ := c
    cases out with
    | none =>
      constructor
      · intro v hv
        have hv' : (applyHint st hint).settled = some (.ok v) := hv
        rw [applyHint_settled] at hv'
        show 2 ≤ (applyHint st hint).promptAppearance
        rw [applyHint_pa]
        exact hok v hv'
      · intro m hm
        have hm' : (applyHint st hint).settled = some (.error m) := hm
        rw [applyHint_settled] at hm'
        exact herr m hm'
    | some o =>
      by_cases h1 : o = ""
      · subst h1
        constructor
        · intro v hv
          have hv' : (applyHint st hint).settled = some (.ok v) := hv
          rw [applyHint_settled] at hv'
          show 2 ≤ (applyHint st hint).promptAppearance
          rw [applyHint_pa]
          exact hok v hv'
        · intro m hm
          have hm' : (applyHint st hint).settled = some (.error m) := hm
          rw [applyHint_settled] at hm'
          exact herr m hm'
      · by_cases h2 : o = cmdText ++ "\r\n"
        · have hst : execShellStep cmdText st (.cmd { output := some o, hint := hint }) = st := by
            show (if o = "" then applyHint st hint
                  else if o = cmdText ++ "\r\n" then st
                  else applyHint (shellOutputStep st o) hint) = st
            rw [if_neg h1, if_pos h2]
          rw [hst]
          exact ⟨hok, herr⟩
        · have hst : execShellStep cmdText st (.cmd { output := some o, hint := hint }) =
              applyHint (shellOutputStep st o) hint :=
            execShellCmd_output cmdText st o hint h1 h2
          rw [hst]
          constructor
          · intro v hv
            rw [applyHint_settled, shellOutputStep_settled] at hv
            rw [applyHint_pa]
            show 2 ≤ shellPA st o
            by_cases hpa : shellPA st o = 2
            · omega
            · rw [if_neg hpa] at hv
              have := hok v hv
              have := shellPA_ge st o
              omega
          · intro m hm
            rw [applyHint_settled, shellOutputStep_settled] at hm
            by_cases hpa : shellPA st o = 2
            · rw [if_pos hpa] at hm
              rcases promiseSettle_eq_some _ _ _ hm with hp | ⟨hp, he⟩
              · exact herr m hp
              · exact absurd he (by simp)
            · rw [if_neg hpa] at hm
              exact herr m hm

theorem shellInv_init (li0 : Nat) : shellInv (initShellState li0) := by
  constructor
  · intro v hv; exact absurd hv (by simp [initShellState])
  · intro m hm; exact absurd hm (by simp [initShellState])

theorem execShellFold_inv (cmdText : String) (evs : List SEvent)
    (st : ShellState) (h : shellInv st) :
    shellInv (evs.foldl (execShellStep cmdText) st) := by
  induction evs generalizing st with
  | nil => exact h
  | cons e evs ih => exact ih _ (execShellStep_inv cmdText st e h)

/-! ### Helper lemmas for the run reducer -/

theorem runApplyHint_settled (st : RunState) (h : Option String) :
    (runApplyHint st h).settled = st.settled := by cases h <;> rfl

theorem runApplyHint_started (st : RunState) (h : Option String) :
    (runApplyHint st h).timerStarted = st.timerStarted := by cases h <;> rfl

theorem execRunCmd_noTimer (st : RunState) (o : String) (hint : Option String)
    (h1 : ¬ o = "") :
    execRunCmd false st { output := some o, hint := hint } =
      { content := st.content ++ o, promptAppearance := runPA st o,
        timerStarted := st.timerStarted, threw := true,
        settled := st.settled } := by
  show (if o = "" then runApplyHint st hint else _) = _
  rw [if_neg h1]
  rfl

theorem execRunStep_noTimer_pres (st : RunState) (e : REvent)
    (h1 : st.settled = none) (h2 : st.timerStarted = false) :
    (execRunStep false st e).settled = none ∧
    (execRunStep false st e).timerStarted = false := by
  cases e with
  | timerFire =>
    have hstep : execRunStep false st REvent.timerFire = st := by
      show (if st.timerStarted then
              { st with settled := promiseSettle st.settled (cleanTerminalOutput st.content) }
            else st) = st
      rw [h2]
      rfl
    rw [hstep]
    exact ⟨h1, h2⟩
  | cmd c =>
    obtain ⟨out, hint⟩ := c
    cases out with
    | none =>
      show (runApplyHint st hint).settled = none ∧
        (runApplyHint st hint).timerStarted = false
      rw [runApplyHint_settled, runApplyHint_started]
      exact ⟨h1, h2⟩
    | some o =>
      by_cases ho : o = ""
      · subst ho
        show (runApplyHint st hint).settled = none ∧
          (runApplyHint st hint).timerStarted = false
        rw [runApplyHint_settled, runApplyHint_started]
        exact ⟨h1, h2⟩
      · rw [show execRunStep false st (.cmd { output := some o, hint := hint }) =
              execRunCmd false st { output := some o, hint := hint } from rfl,
            execRunCmd_noTimer st o hint ho]
        exact ⟨h1, h2⟩

theorem execRunFold_noTimer (evs : List REvent) (st : RunState)
    (h1 : st.settled = none) (h2 : st.timerStarted = false) :
    (evs.foldl (execRunStep false) st).settled = none ∧
    (evs.foldl (execRunStep false) st).timerStarted = false := by
  induction evs generalizing st with
  | nil => exact ⟨h1, h2⟩
  | cons e evs ih =>
    obtain ⟨h1', h2'⟩ := execRunStep_noTimer_pres st e h1 h2
    exact ih _ h1' h2'

/-! ### Claim theorems -/

/-- Claim C1 (evaluation at the failing input).  The claim says every
output chunk that — after ANSI stripping — ends with the shell-prompt
pattern increments the prompt-sighting counter, and that the promise
resolves when the counter first reaches two.  The chunk `"~/abc$ "`
does end with the prompt pattern, yet feeding `execShell "x"` two such
chunks in a row (module fresh, `lastIndex = 0`) leaves the counter at
one and the promise pending: the module-global `g`-flagged
`shellPrompt` regex retains `lastIndex = 7` after the first successful
`test`, so the second test starts at the end of the chunk and fails. -/
theorem c1_shellPrompt_stateful_miscount :
    chunkEndsWithShellPrompt "~/abc$ " = true ∧
    execShellRun "x" 0
        [SEvent.cmd { output := some "~/abc$ ", hint := none },
         SEvent.cmd { output := some "~/abc$ ", hint := none }] =
      { content := "~/abc$ ~/abc$ ", promptAppearance := 1, lastIndex := 0,
        settled := none } := by
  constructor
  · decide
  · decide

/-- Claim C2: the output cleaning applied at resolution equals the
claim's reference definition (trim, strip colour codes, split on
newlines, drop the first and last line, rejoin, trim; empty guard;
then drop the first carriage-return segment); consequently, whenever
the accumulated text is a newline-join of newline-free lines that is
already trimmed and colour-free, the cleaned result is computed from
the middle lines alone — the first and the last line are dropped
before any further processing. -/
theorem c2_cleanTerminalOutput_reference_and_drop :
    (∀ s, cleanTerminalOutput s = cleanTerminalOutputSpec s) ∧
    (∀ (first lastL : String) (mid : List String),
      (∀ s ∈ first :: (mid ++ [lastL]), ∀ c ∈ s.data, ¬ c = '\n') →
      jsTrim (joinWith '\n' (first :: (mid ++ [lastL]))) =
        joinWith '\n' (first :: (mid ++ [lastL])) →
      stripColorCodes (joinWith '\n' (first :: (mid ++ [lastL]))) =
        joinWith '\n' (first :: (mid ++ [lastL])) →
      cleanTerminalOutput (joinWith '\n' (first :: (mid ++ [lastL]))) =
        finishClean mid) := by
  constructor
  · intro s; rfl
  · intro first lastL mid hnl htrim hcolor
    have hsplit : splitOnChar '\n' (joinWith '\n' (first :: (mid ++ [lastL]))) =
        first :: (mid ++ [lastL]) :=
      splitOnChar_joinWith '\n' _ (by simp) hnl
    show cleanTerminalOutput _ = finishClean mid
    unfold cleanTerminalOutput finishClean
    rw [htrim, hcolor, hsplit]
    simp [List.dropLast_concat]

/-- Witness for C2 at the accumulation `"cmd\nhi\rout\nprompt"`. -/
theorem c2_cleanTerminalOutput_reference_and_drop_witness :
    cleanTerminalOutput (joinWith '\n' ("cmd" :: (["hi\rout"] ++ ["prompt"]))) =
      finishClean ["hi\rout"] :=
  c2_cleanTerminalOutput_reference_and_drop.2 "cmd" "prompt" ["hi\rout"]
    (by decide) (by decide) (by decide)

/-- Claim C3 (evaluation).  The claim says that under the best-effort
policy an `execRun` with a timeout whose invocation sees zero chunks
resolves with the empty string when the timeout fires.  In the code the
`Timer` constructor never calls `start()` and `start()` is reached only
through `restart()` inside the output listener, so with zero chunks the
timer is never started, no fire event has any effect, and the promise
never settles at all. -/
theorem c3_execRun_timer_never_started_without_chunks :
    ∀ n : Nat,
      (execRunProcess true (List.replicate n REvent.timerFire)).settled = none ∧
      (execRunProcess true (List.replicate n REvent.timerFire)).timerStarted = false := by
  have key : ∀ n, execRunProcess true (List.replicate n REvent.timerFire) = initRunState := by
    intro n
    induction n with
    | zero => rfl
    | succ n ih =>
      rw [List.replicate_succ]
      exact ih
  intro n
  rw [key n]
  exact ⟨rfl, rfl⟩

/-- Claim C4: echo suppression.  For any invocation of
`execShell`/`execInterp` with command text `cmdText`, a command event
whose output is exactly `cmdText + "\r\n"` is ignored entirely: the
listener returns immediately, so the state — buffer, counter,
`lastIndex` and promise — is unchanged (even a hint attached to the
same event is skipped). -/
theorem c4_echo_suppression (cmdText : String) (st : ShellState)
    (h : Option String) :
    execShellCmd cmdText st { output := some (cmdText ++ "\r\n"), hint := h } = st := by
  have hne : ¬ (cmdText ++ "\r\n" = "") := by
    intro hcontra
    have h2 : (cmdText ++ "\r\n").length = 0 := by rw [hcontra]; rfl
    simp [String.length_append] at h2
    exact absurd h2.2 (by decide)
  simp [execShellCmd, hne]

/-- Claim C5: channel-registry idempotence.  `instanceName` defaults
to `service` when absent; when the key is absent and the transport
open succeeds with handle `c`, the first call issues exactly one open
request, stores `c` under the key, and returns it, while a second
sequential call returns the same handle with no further open request
and no state change. -/
theorem c5_channel_registry_idempotent
    (transport : String → Option String → Except String Nat)
    (st : Registry) (service : String) (name : Option String) (c : Nat)
    (habsent : lookupChan st.channels (channelKey service name) = none)
    (hopen : transport service name = Except.ok c) :
    channelKey service none = service ∧
    (channel transport st service name).1 = Except.ok c ∧
    (channel transport st service name).2.opens = st.opens + 1 ∧
    lookupChan (channel transport st service name).2.channels
      (channelKey service name) = some c ∧
    (channel transport (channel transport st service name).2 service name).1 =
      Except.ok c ∧
    (channel transport (channel transport st service name).2 service name).2 =
      (channel transport st service name).2 := by
  have e1 : channel transport st service name =
      (Except.ok c, { channels := (channelKey service name, c) :: st.channels,
                      opens := st.opens + 1 }) := by
    unfold channel
    rw [habsent, hopen]
  have hlook : lookupChan ((channelKey service name, c) :: st.channels)
      (channelKey service name) = some c := by
    simp [lookupChan]
  have e2 : channel transport
      ({ channels := (channelKey service name, c) :: st.channels,
         opens := st.opens + 1 } : Registry) service name =
      (Except.ok c, { channels := (channelKey service name, c) :: st.channels,
                      opens := st.opens + 1 }) := by
    unfold channel
    rw [hlook]
  refine ⟨rfl, ?_, ?_, ?_, ?_, ?_⟩
  · rw [e1]
  · rw [e1]
  · rw [e1]; exact hlook
  · rw [e1]; exact congrArg Prod.fst e2
  · rw [e1]; exact congrArg Prod.snd e2

/-- Witness for C5: an empty registry, a transport that answers with
handle `7`, and the key `"files"` (no instance name). -/
theorem c5_channel_registry_idempotent_witness :
    channelKey "files" none = "files" ∧
    (channel (fun _ _ => Except.ok 7) ⟨[], 0⟩ "files" none).1 = Except.ok 7 ∧
    (channel (fun _ _ => Except.ok 7) ⟨[], 0⟩ "files" none).2.opens = 1 ∧
    lookupChan (channel (fun _ _ => Except.ok 7) ⟨[], 0⟩ "files" none).2.channels
      (channelKey "files" none) = some 7 ∧
    (channel (fun _ _ => Except.ok 7)
      (channel (fun _ _ => Except.ok 7) ⟨[], 0⟩ "files" none).2 "files" none).1 =
      Except.ok 7 ∧
    (channel (fun _ _ => Except.ok 7)
      (channel (fun _ _ => Except.ok 7) ⟨[], 0⟩ "files" none).2 "files" none).2 =
      (channel (fun _ _ => Except.ok 7) ⟨[], 0⟩ "files" none).2 :=
  c5_channel_registry_idempotent (fun _ _ => Except.ok 7) ⟨[], 0⟩ "files" none 7
    rfl rfl

/-- Claim C6: hard-deadline timeout policy.  For any
`execShell`/`execInterp` invocation, if the prompt-sighting counter has
not reached two by the time the deadline fires, the promise rejects
with the timeout error, and it stays rejected no matter what events
arrive afterwards. -/
theorem c6_hard_deadline_reject (cmdText : String) (li0 : Nat)
    (pre post : List SEvent)
    (h : (execShellRun cmdText li0 pre).promptAppearance < 2) :
    (execShellRun cmdText li0 (pre ++ SEvent.deadline :: post)).settled =
      some (Except.error timeoutMsg) := by
  have hinv : shellInv (execShellRun cmdText li0 pre) :=
    execShellFold_inv cmdText pre (initShellState li0) (shellInv_init li0)
  unfold execShellRun
  rw [List.foldl_append, List.foldl_cons]
  apply execShellFold_settled_some
  show promiseSettle (execShellRun cmdText li0 pre).settled (.error timeoutMsg) =
    some (.error timeoutMsg)
  cases hs : (execShellRun cmdText li0 pre).settled with
  | none => rfl
  | some y =>
    cases y with
    | ok v => exact absurd (hinv.1 v hs) (by omega)
    | error m => rw [hinv.2 m hs]; rfl

/-- Witness for C6: the deadline fires before any chunk, and a
prompt-bearing chunk arriving afterwards does not un-reject. -/
theorem c6_hard_deadline_reject_witness :
    (execShellRun "x" 0 []).promptAppearance < 2 ∧
    (execShellRun "x" 0 ([] ++ SEvent.deadline ::
        [SEvent.cmd { output := some "~/a$ ", hint := none }])).settled =
      some (Except.error timeoutMsg) :=
  ⟨by decide,
   c6_hard_deadline_reject "x" 0 []
     [SEvent.cmd { output := some "~/a$ ", hint := none }] (by decide)⟩

/-- Claim C7 (counterexample).  The claim says `connect()` on a session
whose stored credential is empty fails fast with a configuration error
before any network interaction.  On the session record with `token =
""`, the very first action of `connect()` is the network token test,
and `connect()` raises no configuration error anywhere. -/
theorem c7_connect_counterexample :
    (connectActions emptyTokenClient false false).head? =
      some (ConnectAction.networkTokenTest "") ∧
    (connectActions emptyTokenClient false false).all
      (fun a => !isConfigErrorAction a) = true := by
  constructor
  · rfl
  · rfl

/-- Claim C7 (amended): the empty-credential validation happens in the
constructor, not in `connect()`: constructing a client with an empty
token fails fast with `UserError: Missing token parameter.` before any
network interaction, so no session with an empty stored credential can
exist; `connect()` itself performs no credential-emptiness check — its
first action is always a network call (the token validity test), and
it raises no configuration error. -/
theorem c7_token_validated_at_construction (o : CrosisConfigOptions)
    (h : o.token = "") :
    mkCrosisClient o = Except.error missingTokenMsg ∧
    (∀ (c : ClientModel) (hasUser hasRepl : Bool),
      (connectActions c hasUser hasRepl).head? =
        some (ConnectAction.networkTokenTest c.token) ∧
      (connectActions c hasUser hasRepl).all
        (fun a => !isConfigErrorAction a) = true) := by
  constructor
  · unfold mkCrosisClient
    rw [if_pos h]
  · intro c hasUser hasRepl
    constructor
    · rfl
    · cases hasUser <;> cases hasRepl <;>
        simp [connectActions, isConfigErrorAction]

/-- Witness for the amended C7. -/
theorem c7_token_validated_at_construction_witness :
    mkCrosisClient emptyTokenOptions = Except.error missingTokenMsg ∧
    (connectActions demoClient true true).head? =
      some (ConnectAction.networkTokenTest "tok") :=
  ⟨(c7_token_validated_at_construction emptyTokenOptions rfl).1,
   ((c7_token_validated_at_construction emptyTokenOptions rfl).2
      demoClient true true).1⟩

/-- Claim C8: capability gating is a soft failure.  When the workspace
descriptor's runner flag is false, each of `execRun`, `execShell`,
`execInterp` and `execStop` returns `false` without opening a channel,
sending anything, or raising; when the packager flag is false, each
packager operation does the same. -/
theorem c8_capability_soft_failure (repl : Repl) (exec : String) :
    (repl.lang.runner = false →
      execRunDrive repl = DriveStart.returnsFalse ∧
      execShellDrive repl exec = DriveStart.returnsFalse ∧
      execInterpDrive repl exec = DriveStart.returnsFalse ∧
      execStopDrive repl = DriveStart.returnsFalse) ∧
    (repl.lang.packager3 = false →
      packageInstallDrive repl = DriveStart.returnsFalse ∧
      packageAddDrive repl = DriveStart.returnsFalse ∧
      packageRemoveDrive repl = DriveStart.returnsFalse ∧
      packageListDrive repl = DriveStart.returnsFalse ∧
      packageSearchDrive repl = DriveStart.returnsFalse ∧
      packageInfoDrive repl = DriveStart.returnsFalse) := by
  constructor
  · intro h
    refine ⟨?_, ?_, ?_, ?_⟩ <;>
      simp [execRunDrive, execShellDrive, execInterpDrive, execStopDrive, h]
  · intro h
    refine ⟨?_, ?_, ?_, ?_, ?_, ?_⟩ <;>
      simp [packageInstallDrive, packageAddDrive, packageRemoveDrive,
            packageListDrive, packageSearchDrive, packageInfoDrive, h]

/-- Witness for C8 on a workspace with no runner and no packager. -/
theorem c8_capability_soft_failure_witness :
    execStopDrive noCapRepl = DriveStart.returnsFalse ∧
    execRunDrive noCapRepl = DriveStart.returnsFalse ∧
    packageInstallDrive noCapRepl = DriveStart.returnsFalse :=
  ⟨((c8_capability_soft_failure noCapRepl "ls").1 rfl).2.2.2,
   ((c8_capability_soft_failure noCapRepl "ls").1 rfl).1,
   ((c8_capability_soft_failure noCapRepl "ls").2 rfl).1⟩

/-- Claim C9: `close()`/`disconnect()` on a session whose `connected`
flag is false throws the not-connected state error and leaves the
session unchanged with no transport traffic; on a connected session it
calls `client.close()` and flips `connected` to false. -/
theorem c9_close_requires_connected (st : SessionState) :
    (st.connected = false → close st = (st, [], some notConnectedMsg)) ∧
    (st.connected = true →
      close st = ({ st with connected := false },
                  [TeardownEffect.clientClose], none)) := by
  constructor
  · intro h
    unfold close
    rw [if_pos h]
  · intro h
    unfold close
    rw [if_neg (by rw [h]; exact fun hc => nomatch hc)]

/-- Witness for C9 on a never-connected session and a connected one. -/
theorem c9_close_requires_connected_witness :
    close ⟨false, false⟩ = (⟨false, false⟩, [], some notConnectedMsg) ∧
    close ⟨true, false⟩ = (⟨false, false⟩, [TeardownEffect.clientClose], none) :=
  ⟨(c9_close_requires_connected ⟨false, false⟩).1 rfl,
   (c9_close_requires_connected ⟨true, false⟩).2 rfl⟩

/-- Claim C10: when `execRun` is called without a timeout, the `timer`
variable is never assigned, yet the listener invokes `timer.restart()`
after appending each output chunk; so every (truthy) output chunk makes
the listener throw a `TypeError` — after the counter bump and the
append but before the `res` call — and the run promise can never
resolve, whatever events arrive. -/
theorem c10_execRun_no_timeout_typeerror :
    (∀ evs : List REvent, (execRunProcess false evs).settled = none) ∧
    (∀ (st : RunState) (o : String) (hint : Option String), ¬ o = "" →
      (execRunCmd false st { output := some o, hint := hint }).threw = true ∧
      (execRunCmd false st { output := some o, hint := hint }).content =
        st.content ++ o ∧
      (execRunCmd false st { output := some o, hint := hint }).settled =
        st.settled) := by
  constructor
  · intro evs
    exact (execRunFold_noTimer evs initRunState rfl rfl).1
  · intro st o hint ho
    rw [execRunCmd_noTimer st o hint ho]
    exact ⟨rfl, rfl, rfl⟩

/-- Witness for C10 at the chunk `"hi"`. -/
theorem c10_execRun_no_timeout_typeerror_witness :
    (execRunProcess false [REvent.cmd { output := some "hi", hint := none }]).settled = none ∧
    (execRunCmd false initRunState { output := some "hi", hint := none }).threw = true :=
  ⟨c10_execRun_no_timeout_typeerror.1 [REvent.cmd { output := some "hi", hint := none }],
   (c10_execRun_no_timeout_typeerror.2 initRunState "hi" none (by decide)).1⟩
